import Mathlib

/-!
Verification of the TinyOS concurrency core and IPC fabric
(pipes, PTCB thread records, PCB process records, sockets, procinfo stream).

Shallow embedding conventions:
* C structs become Lean structures; pointers that only encode "this side is
  open/closed" become `Bool` flags; nullable pointers become `Option`.
* The single kernel lock means every operation runs atomically between
  suspension points (`kernel_wait`/`kernel_timedwait`).  A blocking loop is
  embedded as a function that, at each suspension, consumes one action from an
  explicit environment list describing what the other side of the pipe did
  while the caller slept (the pipe is single-producer/single-consumer, so the
  only interference at a write suspension is the reader reading or closing,
  and at a read suspension the writer writing or closing).  An empty
  environment at a suspension point means the caller blocks forever, which the
  embedding reports as `none`.
* `free`/heap lifetime is tracked with ghost fields (`freed`, `freeCount`);
  condition-variable signals that matter to a claim are counted with ghost
  counters.  C `int` becomes `Int` where negative values are reachable and
  `Nat` where the source keeps the value non-negative; C `uint` becomes `Nat`
  with arithmetic modulo `2 ^ 32`.
-/

/-! ## Pipe control block (kernel_pipe.h / pipe source file) -/

/-- The size of the pipe buffer (`#define PIPE_BUFFER_SIZE 512`). -/
def PIPE_BUFFER_SIZE : Nat := 512

/-- Pipe control block `pipe_cb`.  `reader`/`writer` model the two FCB slots:
`true` means the slot is live, `false` models the slot having been set to
`NULL` by the corresponding half-close.  The condition variables `has_space`
and `has_data` carry no state of their own and are not represented; waiting on
them is modelled by the environment lists fed to `pipe_read`/`pipe_write`. -/
structure PipeCB where
  reader : Bool
  writer : Bool
  w_position : Nat
  r_position : Nat
  w_bytes : Nat
  BUFFER : Nat → Nat

/-- The body of the write loop once the wait loop has been passed:
`BUFFER[w_position] = b; w_position = (w_position+1) % PIPE_BUFFER_SIZE; w_bytes++`. -/
def putByte (b : Nat) (p : PipeCB) : PipeCB :=
  { p with
    BUFFER := fun j => if j = p.w_position then b else p.BUFFER j
    w_position := (p.w_position + 1) % PIPE_BUFFER_SIZE
    w_bytes := p.w_bytes + 1 }

/-- The body of the read loop once the wait loop and the end-of-data check have
been passed: `r_position = (r_position+1) % PIPE_BUFFER_SIZE; w_bytes--`. -/
def takeByte (p : PipeCB) : PipeCB :=
  { p with
    r_position := (p.r_position + 1) % PIPE_BUFFER_SIZE
    w_bytes := p.w_bytes - 1 }

/-- Interference possible while a writer sleeps in `kernel_wait(&has_space)`:
the reader side can consume one byte (one iteration of `pipe_read`'s loop) or
close (`pipe_reader_close` setting `pipe->reader = NULL`). -/
inductive WAct
  | closeReader
  | takeOne

/-- Effect of one reader-side action on the pipe state.  `takeOne` only
consumes when data is present, mirroring the guards in `pipe_read` (its loop
never pops a byte while `w_bytes == 0`). -/
def applyWAct : WAct → PipeCB → PipeCB
  | WAct.closeReader, p => { p with reader := false }
  | WAct.takeOne, p => if p.w_bytes = 0 then p else takeByte p

/-- Interference possible while a reader sleeps in `kernel_wait(&has_data)`:
the writer side can append one byte (one iteration of `pipe_write`'s loop) or
close (`pipe_writer_close` setting `pipe->writer = NULL`).  `putOne` only
appends when the buffer is not exactly full, mirroring `pipe_write`'s wait
loop, which (with the reader open, as it is while that reader is inside
`pipe_read`) blocks exactly while `w_bytes == PIPE_BUFFER_SIZE`. -/
inductive RAct
  | closeWriter
  | putOne (b : Nat)

/-- Effect of one writer-side action on the pipe state. -/
def applyRAct : RAct → PipeCB → PipeCB
  | RAct.closeWriter, p => { p with writer := false }
  | RAct.putOne b, p => if p.w_bytes = PIPE_BUFFER_SIZE then p else putByte b p

/-- `pipe_write`'s inner wait loop:
`while (pipe->reader != NULL && pipe->w_bytes == PIPE_BUFFER_SIZE) { broadcast(has_data); wait(has_space); }`.
Each `kernel_wait` consumes one environment action; an exhausted environment
means the writer sleeps forever (`none`). -/
def writeWait : List WAct → PipeCB → Option (PipeCB × List WAct)
  | [], p =>
      if p.reader = true ∧ p.w_bytes = PIPE_BUFFER_SIZE then none
      else some (p, [])
  | a :: rest, p =>
      if p.reader = true ∧ p.w_bytes = PIPE_BUFFER_SIZE then writeWait rest (applyWAct a p)
      else some (p, a :: rest)

/-- `pipe_write`'s `for` loop over the bytes of `buf`; `i` is the loop
counter (the number of bytes copied so far). -/
def pipeWriteLoop : List Nat → List WAct → PipeCB → Nat → Option (PipeCB × Nat × List WAct)
  | [], env, p, i => some (p, i, env)
  | b :: rest, env, p, i =>
      match writeWait env p with
      | none => none
      | some (p', env') => pipeWriteLoop rest env' (putByte b p') (i + 1)

/-- `pipe_write(pipecb_t, buf, n)`.  The buffer argument and `n` are combined
into the list `buf` of the `n` bytes to be written.  Returns the final pipe
state and the C return value, or `none` if the call blocks forever. -/
def pipe_write (p : PipeCB) (buf : List Nat) (env : List WAct) : Option (PipeCB × Int) :=
  if p.reader = false ∨ p.writer = false then some (p, -1)
  else
    match pipeWriteLoop buf env p 0 with
    | none => none
    | some (p', i, _) => some (p', (i : Int))

/-- `pipe_read`'s inner wait loop:
`while (pipe->writer != NULL && pipe->w_bytes == 0) { broadcast(has_space); wait(has_data); }`. -/
def readWait : List RAct → PipeCB → Option (PipeCB × List RAct)
  | [], p =>
      if p.writer = true ∧ p.w_bytes = 0 then none
      else some (p, [])
  | a :: rest, p =>
      if p.writer = true ∧ p.w_bytes = 0 then readWait rest (applyRAct a p)
      else some (p, a :: rest)

/-- `pipe_read`'s `for` loop; `acc` accumulates the bytes copied to `buf`
(in reverse).  The mid-loop `return i` when the writer has closed and the
buffer has drained is the second branch. -/
def pipeReadLoop : Nat → List RAct → PipeCB → List Nat → Option (PipeCB × List Nat × List RAct)
  | 0, env, p, acc => some (p, acc.reverse, env)
  | Nat.succ m, env, p, acc =>
      match readWait env p with
      | none => none
      | some (p', env') =>
          if p'.writer = false ∧ p'.w_bytes = 0 then some (p', acc.reverse, env')
          else pipeReadLoop m env' (takeByte p') (p'.BUFFER p'.r_position :: acc)

/-- `pipe_read(pipecb_t, buf, n)`.  Returns the final pipe state, the C return
value and the list of bytes copied out.  Note the source's end-of-data test is
`pipe->writer == NULL && pipe->r_position == pipe->w_position` — a cursor
comparison, not a `w_bytes == 0` test. -/
def pipe_read (p : PipeCB) (n : Nat) (env : List RAct) : Option (PipeCB × Int × List Nat) :=
  if p.reader = false then some (p, -1, [])
  else if p.writer = false ∧ p.r_position = p.w_position then some (p, 0, [])
  else
    match pipeReadLoop n env p [] with
    | none => none
    | some (p', bs, _) => some (p', (bs.length : Int), bs)

/-- `pipe_writer_close(_pipecb)`: fails if the pipe is `NULL` or the writer
slot is already cleared, otherwise clears it. -/
def pipe_writer_close : Option PipeCB → Option PipeCB × Int
  | none => (none, -1)
  | some p => if p.writer = false then (some p, -1) else (some { p with writer := false }, 0)

/-- `pipe_reader_close(_pipecb)`: fails if the pipe is `NULL` or the reader
slot is already cleared, otherwise clears it. -/
def pipe_reader_close : Option PipeCB → Option PipeCB × Int
  | none => (none, -1)
  | some p => if p.reader = false then (some p, -1) else (some { p with reader := false }, 0)

/-- The pipe state constructed by `sys_Pipe`: both cursors and the byte count
zero, both FCB slots attached.  (The C leaves `BUFFER` uninitialized; the
model zeroes it, which no claim depends on.) -/
def initPipe : PipeCB :=
  { reader := true, writer := true, w_position := 0, r_position := 0, w_bytes := 0
    BUFFER := fun _ => 0 }

/-- The cyclic-buffer invariant of the specification:
`w_position = (r_position + w_bytes) mod PIPE_BUFFER_SIZE` and
`0 ≤ w_bytes ≤ PIPE_BUFFER_SIZE`, together with the cursor-range facts
`w_position, r_position < PIPE_BUFFER_SIZE` implicit in the C declaration
(both cursors are only ever assigned values reduced `mod PIPE_BUFFER_SIZE`). -/
def PipeInv (p : PipeCB) : Prop :=
  p.w_position = (p.r_position + p.w_bytes) % PIPE_BUFFER_SIZE ∧
  p.w_bytes ≤ PIPE_BUFFER_SIZE ∧
  p.w_position < PIPE_BUFFER_SIZE ∧ p.r_position < PIPE_BUFFER_SIZE

/-- The modular half of the invariant alone (no bound on `w_bytes`). -/
def PipeModRel (p : PipeCB) : Prop :=
  p.w_position = (p.r_position + p.w_bytes) % PIPE_BUFFER_SIZE ∧
  p.w_position < PIPE_BUFFER_SIZE ∧ p.r_position < PIPE_BUFFER_SIZE

instance (p : PipeCB) : Decidable (PipeInv p) := by unfold PipeInv; infer_instance

instance (p : PipeCB) : Decidable (PipeModRel p) := by unfold PipeModRel; infer_instance

/-- A pipe whose buffer is exactly full, with both ends open.  Satisfies the
cyclic-buffer invariant (`w_position = r_position`, `w_bytes = 512`). -/
def fullOpenPipe : PipeCB :=
  { reader := true, writer := true, w_position := 0, r_position := 0
    w_bytes := PIPE_BUFFER_SIZE, BUFFER := fun _ => 0 }

/-- A pipe whose writer has closed while the buffer is exactly full:
512 unread bytes are buffered and `r_position = w_position`. -/
def fullEOFPipe : PipeCB :=
  { reader := true, writer := false, w_position := 0, r_position := 0
    w_bytes := PIPE_BUFFER_SIZE, BUFFER := fun i => i % 256 }

/-- A pipe holding three unread bytes, both ends open. -/
def threeBytePipe : PipeCB :=
  { reader := true, writer := true, w_position := 3, r_position := 0
    w_bytes := 3, BUFFER := fun _ => 0 }

/-- C1: the code violates the claim.  For a pipe whose writer side has closed
while the buffer holds `k = 512` bytes (`k < n = 600`), the claim says
`pipe_read` returns `512` and copies the buffered bytes out; but the source's
end-of-data test `writer == NULL && r_position == w_position` is also
satisfied when the buffer is exactly full, so this call returns `0`
immediately, copying nothing, and the 512 buffered bytes are lost. -/
theorem pipe_read_eof_full_buffer_bug :
    fullEOFPipe.writer = false ∧
    fullEOFPipe.w_bytes = PIPE_BUFFER_SIZE ∧
    PIPE_BUFFER_SIZE < 600 ∧
    pipe_read fullEOFPipe 600 [] = some (fullEOFPipe, 0, []) :=
  ⟨rfl, rfl, by decide, rfl⟩

/-- C2: counterexample to the claim as stated.  Start from a full pipe with
both ends open (0 bytes copied so far), write one byte, and let the reader
close during the single suspension.  The claim says the call then returns the
number of bytes already copied, i.e. `0`; instead the wait loop falls through
and the byte is still copied into the (already full) buffer — `w_bytes`
becomes 513 — and the call returns `1`. -/
theorem pipe_write_reader_close_counterexample :
    fullOpenPipe.w_bytes = PIPE_BUFFER_SIZE ∧
    (pipe_write fullOpenPipe [7] [WAct.closeReader]).map
        (fun x => ((x.1).w_bytes, (x.1).reader, x.2)) =
      some (PIPE_BUFFER_SIZE + 1, false, 1) ∧
    (1 : Int) ≠ 0 :=
  ⟨rfl, rfl, by decide⟩

/-- If the reader slot is already cleared, the wait loop exits at once. -/
theorem writeWait_of_reader_false (env : List WAct) (p : PipeCB) (h : p.reader = false) :
    writeWait env p = some (p, env) := by
  cases env <;> simp [writeWait, h]

/-- Once the reader is closed, the remainder of `pipe_write`'s loop never
suspends again: it copies every remaining byte into the buffer, returning the
full count and growing `w_bytes` by the number of remaining bytes. -/
theorem pipeWriteLoop_reader_closed (buf : List Nat) :
    ∀ (env : List WAct) (p : PipeCB) (i : Nat), p.reader = false →
      ∃ q, pipeWriteLoop buf env p i = some (q, i + buf.length, env) ∧
        q.reader = false ∧ q.w_bytes = p.w_bytes + buf.length := by
  induction buf with
  | nil => intro env p i h; exact ⟨p, rfl, h, rfl⟩
  | cons b rest ih =>
      intro env p i h
      obtain ⟨q, hq, hqr, hqb⟩ := ih env (putByte b p) (i + 1) (by simp [putByte, h])
      refine ⟨q, ?_, hqr, ?_⟩
      · simp only [pipeWriteLoop, writeWait_of_reader_false env p h]
        rw [hq]
        congr 2
        simp [List.length_cons]
        omega
      · simp only [putByte] at hqb
        simp [hqb, List.length_cons]
        omega

/-- C2 (amended): `pipe_write`'s wait loop does re-check the reader-closed
condition on each wakeup, but when the reader closes mid-write the call does
not stop: it copies all remaining bytes into the buffer (overrunning the
full buffer, `w_bytes` ending at `PIPE_BUFFER_SIZE + n`) and returns the full
requested count `n`, not the number of bytes copied before the close. -/
theorem pipe_write_reader_close_continues (p : PipeCB) (b : Nat) (buf : List Nat)
    (env : List WAct) (h1 : p.reader = true) (h2 : p.writer = true)
    (h3 : p.w_bytes = PIPE_BUFFER_SIZE) :
    ∃ q, pipe_write p (b :: buf) (WAct.closeReader :: env) =
        some (q, ((b :: buf).length : Int)) ∧
      q.reader = false ∧ q.w_bytes = PIPE_BUFFER_SIZE + (b :: buf).length := by
  have hcl : applyWAct WAct.closeReader p = { p with reader := false } := rfl
  have hw : writeWait (WAct.closeReader :: env) p = some ({ p with reader := false }, env) := by
    simp only [writeWait, h1, h3, and_self, if_pos, hcl]
    exact writeWait_of_reader_false env _ rfl
  obtain ⟨q, hq, hqr, hqb⟩ :=
    pipeWriteLoop_reader_closed buf env (putByte b { p with reader := false }) 1 (by simp [putByte])
  refine ⟨q, ?_, hqr, ?_⟩
  · simp only [pipe_write, h1, h2, false_or]
    rw [if_neg (by simp)]
    simp only [pipeWriteLoop, hw, hq]
    congr 2
    simp [List.length_cons]
    omega
  · simp only [putByte] at hqb
    simp [hqb, h3, List.length_cons]
    omega

/-- Witness for the amended C2 theorem: the full open pipe satisfies its
hypotheses, and writing `[5]` with the reader closing at the suspension
returns 1 with `w_bytes = 513`. -/
theorem pipe_write_reader_close_continues_witness :
    fullOpenPipe.reader = true ∧ fullOpenPipe.writer = true ∧
    fullOpenPipe.w_bytes = PIPE_BUFFER_SIZE ∧
    ∃ q, pipe_write fullOpenPipe [5] [WAct.closeReader] =
        some (q, (([5] : List Nat).length : Int)) ∧
      q.reader = false ∧ q.w_bytes = PIPE_BUFFER_SIZE + ([5] : List Nat).length :=
  ⟨rfl, rfl, rfl, pipe_write_reader_close_continues fullOpenPipe 5 [] [] rfl rfl rfl⟩

/-! ## Cyclic-buffer invariant preservation (C5) -/

/-- One write-loop body step keeps the invariant when the buffer is not full. -/
theorem pipeInv_putByte (b : Nat) (p : PipeCB) (h : PipeInv p)
    (hb : p.w_bytes < PIPE_BUFFER_SIZE) : PipeInv (putByte b p) := by
  obtain ⟨h1, h2, h3, h4⟩ := h
  refine ⟨?_, ?_, ?_, ?_⟩ <;> simp only [putByte]
  · rw [h1, Nat.mod_add_mod, Nat.add_assoc]
  · omega
  · exact Nat.mod_lt _ (by decide)
  · exact h4

/-- One read-loop body step keeps the invariant when data is present. -/
theorem pipeInv_takeByte (p : PipeCB) (h : PipeInv p) (hb : 1 ≤ p.w_bytes) :
    PipeInv (takeByte p) := by
  obtain ⟨h1, h2, h3, h4⟩ := h
  refine ⟨?_, ?_, ?_, ?_⟩ <;> simp only [takeByte]
  · rw [h1, Nat.mod_add_mod]
    congr 1
    omega
  · omega
  · exact h3
  · exact Nat.mod_lt _ (by decide)

/-- One write-loop body step always keeps the modular relation, full or not. -/
theorem pipeModRel_putByte (b : Nat) (p : PipeCB) (h : PipeModRel p) :
    PipeModRel (putByte b p) := by
  obtain ⟨h1, h3, h4⟩ := h
  refine ⟨?_, Nat.mod_lt _ (by decide), h4⟩
  simp only [putByte]
  rw [h1, Nat.mod_add_mod, Nat.add_assoc]

/-- One read-loop body step keeps the modular relation when data is present. -/
theorem pipeModRel_takeByte (p : PipeCB) (h : PipeModRel p) (hb : 1 ≤ p.w_bytes) :
    PipeModRel (takeByte p) := by
  obtain ⟨h1, h3, h4⟩ := h
  refine ⟨?_, h3, Nat.mod_lt _ (by decide)⟩
  simp only [takeByte]
  rw [h1, Nat.mod_add_mod]
  congr 1
  omega

/-- Reader-side interference keeps the invariant. -/
theorem pipeInv_applyWAct (a : WAct) (p : PipeCB) (h : PipeInv p) :
    PipeInv (applyWAct a p) := by
  cases a with
  | closeReader => exact h
  | takeOne =>
      by_cases hc : p.w_bytes = 0
      · simpa [applyWAct, hc] using h
      · simpa [applyWAct, hc] using pipeInv_takeByte p h (by omega)

/-- Writer-side interference keeps the invariant (its append is guarded by the
write wait loop, which under an open reader blocks exactly on a full buffer). -/
theorem pipeInv_applyRAct (a : RAct) (p : PipeCB) (h : PipeInv p) :
    PipeInv (applyRAct a p) := by
  cases a with
  | closeWriter => exact h
  | putOne b =>
      by_cases hc : p.w_bytes = PIPE_BUFFER_SIZE
      · simpa [applyRAct, hc] using h
      · have hlt : p.w_bytes < PIPE_BUFFER_SIZE := by
          have := h.2.1
          omega
        simpa [applyRAct, hc] using pipeInv_putByte b p h hlt

/-- Reader-side interference keeps the modular relation. -/
theorem pipeModRel_applyWAct (a : WAct) (p : PipeCB) (h : PipeModRel p) :
    PipeModRel (applyWAct a p) := by
  cases a with
  | closeReader => exact h
  | takeOne =>
      by_cases hc : p.w_bytes = 0
      · simpa [applyWAct, hc] using h
      · simpa [applyWAct, hc] using pipeModRel_takeByte p h (by omega)

/-- The write wait loop keeps the invariant. -/
theorem pipeInv_writeWait :
    ∀ (env : List WAct) (p : PipeCB) (r : PipeCB × List WAct),
      PipeInv p → writeWait env p = some r → PipeInv r.1 := by
  intro env
  induction env with
  | nil =>
      intro p r h hw
      simp only [writeWait] at hw
      split at hw
      · simp at hw
      · simp only [Option.some.injEq] at hw; subst hw; exact h
  | cons a rest ih =>
      intro p r h hw
      simp only [writeWait] at hw
      split at hw
      · exact ih (applyWAct a p) r (pipeInv_applyWAct a p h) hw
      · simp only [Option.some.injEq] at hw; subst hw; exact h

/-- The write wait loop keeps the modular relation. -/
theorem pipeModRel_writeWait :
    ∀ (env : List WAct) (p : PipeCB) (r : PipeCB × List WAct),
      PipeModRel p → writeWait env p = some r → PipeModRel r.1 := by
  intro env
  induction env with
  | nil =>
      intro p r h hw
      simp only [writeWait] at hw
      split at hw
      · simp at hw
      · simp only [Option.some.injEq] at hw; subst hw; exact h
  | cons a rest ih =>
      intro p r h hw
      simp only [writeWait] at hw
      split at hw
      · exact ih (applyWAct a p) r (pipeModRel_applyWAct a p h) hw
      · simp only [Option.some.injEq] at hw; subst hw; exact h

/-- The read wait loop keeps the invariant. -/
theorem pipeInv_readWait :
    ∀ (env : List RAct) (p : PipeCB) (r : PipeCB × List RAct),
      PipeInv p → readWait env p = some r → PipeInv r.1 := by
  intro env
  induction env with
  | nil =>
      intro p r h hw
      simp only [readWait] at hw
      split at hw
      · simp at hw
      · simp only [Option.some.injEq] at hw; subst hw; exact h
  | cons a rest ih =>
      intro p r h hw
      simp only [readWait] at hw
      split at hw
      · exact ih (applyRAct a p) r (pipeInv_applyRAct a p h) hw
      · simp only [Option.some.injEq] at hw; subst hw; exact h

/-- When the write wait loop hands control back, the buffer is not full or the
reader is closed (the loop's exit condition). -/
theorem writeWait_post :
    ∀ (env : List WAct) (p : PipeCB) (r : PipeCB × List WAct),
      writeWait env p = some r → ¬((r.1).reader = true ∧ (r.1).w_bytes = PIPE_BUFFER_SIZE) := by
  intro env
  induction env with
  | nil =>
      intro p r hw
      simp only [writeWait] at hw
      split at hw
      · simp at hw
      · case isFalse hneg => simp only [Option.some.injEq] at hw; subst hw; exact hneg
  | cons a rest ih =>
      intro p r hw
      simp only [writeWait] at hw
      split at hw
      · exact ih (applyWAct a p) r hw
      · case isFalse hneg => simp only [Option.some.injEq] at hw; subst hw; exact hneg

/-- When the read wait loop hands control back, data is present or the writer
is closed (the loop's exit condition). -/
theorem readWait_post :
    ∀ (env : List RAct) (p : PipeCB) (r : PipeCB × List RAct),
      readWait env p = some r → ¬((r.1).writer = true ∧ (r.1).w_bytes = 0) := by
  intro env
  induction env with
  | nil =>
      intro p r hw
      simp only [readWait] at hw
      split at hw
      · simp at hw
      · case isFalse hneg => simp only [Option.some.injEq] at hw; subst hw; exact hneg
  | cons a rest ih =>
      intro p r hw
      simp only [readWait] at hw
      split at hw
      · exact ih (applyRAct a p) r hw
      · case isFalse hneg => simp only [Option.some.injEq] at hw; subst hw; exact hneg

/-- No reader-side action re-opens a closed reader. -/
theorem applyWAct_reader_mono (a : WAct) (p : PipeCB)
    (h : (applyWAct a p).reader = true) : p.reader = true := by
  cases a with
  | closeReader => simp [applyWAct] at h
  | takeOne =>
      by_cases hc : p.w_bytes = 0
      · simpa [applyWAct, hc] using h
      · simpa [applyWAct, takeByte, hc] using h

/-- The write wait loop never re-opens a closed reader. -/
theorem writeWait_reader_mono :
    ∀ (env : List WAct) (p : PipeCB) (r : PipeCB × List WAct),
      writeWait env p = some r → (r.1).reader = true → p.reader = true := by
  intro env
  induction env with
  | nil =>
      intro p r hw hr
      simp only [writeWait] at hw
      split at hw
      · simp at hw
      · simp only [Option.some.injEq] at hw; subst hw; exact hr
  | cons a rest ih =>
      intro p r hw hr
      simp only [writeWait] at hw
      split at hw
      · exact applyWAct_reader_mono a p (ih (applyWAct a p) r hw hr)
      · simp only [Option.some.injEq] at hw; subst hw; exact hr

/-- The write loop never re-opens a closed reader. -/
theorem pipeWriteLoop_reader_mono :
    ∀ (buf : List Nat) (env : List WAct) (p : PipeCB) (i : Nat)
      (r : PipeCB × Nat × List WAct),
      pipeWriteLoop buf env p i = some r → (r.1).reader = true → p.reader = true := by
  intro buf
  induction buf with
  | nil =>
      intro env p i r hw hr
      simp only [pipeWriteLoop, Option.some.injEq] at hw
      subst hw
      exact hr
  | cons b rest ih =>
      intro env p i r hw hr
      simp only [pipeWriteLoop] at hw
      cases hww : writeWait env p with
      | none => rw [hww] at hw; simp at hw
      | some pe =>
          obtain ⟨p1, e1⟩ := pe
          rw [hww] at hw
          have := ih e1 (putByte b p1) (i + 1) r hw hr
          exact writeWait_reader_mono env p (p1, e1) hww (by simpa [putByte] using this)

/-- The write loop keeps the invariant provided the reader stays open. -/
theorem pipeInv_pipeWriteLoop :
    ∀ (buf : List Nat) (env : List WAct) (p : PipeCB) (i : Nat)
      (r : PipeCB × Nat × List WAct),
      PipeInv p → pipeWriteLoop buf env p i = some r → (r.1).reader = true → PipeInv r.1 := by
  intro buf
  induction buf with
  | nil =>
      intro env p i r h hw hr
      simp only [pipeWriteLoop, Option.some.injEq] at hw
      subst hw
      exact h
  | cons b rest ih =>
      intro env p i r h hw hr
      simp only [pipeWriteLoop] at hw
      cases hww : writeWait env p with
      | none => rw [hww] at hw; simp at hw
      | some pe =>
          obtain ⟨p1, e1⟩ := pe
          rw [hww] at hw
          have h1 : PipeInv p1 := pipeInv_writeWait env p (p1, e1) h hww
          have hreadp1 : p1.reader = true := by
            have := pipeWriteLoop_reader_mono rest e1 (putByte b p1) (i + 1) r hw hr
            simpa [putByte] using this
          have hlt : p1.w_bytes < PIPE_BUFFER_SIZE := by
            rcases Nat.lt_or_ge p1.w_bytes PIPE_BUFFER_SIZE with hx | hx
            · exact hx
            · exact absurd ⟨hreadp1, Nat.le_antisymm h1.2.1 hx⟩ (writeWait_post env p (p1, e1) hww)
          exact ih e1 (putByte b p1) (i + 1) r (pipeInv_putByte b p1 h1 hlt) hw hr

/-- The write loop always keeps the modular relation, even when the reader has
closed and the buffer overruns. -/
theorem pipeModRel_pipeWriteLoop :
    ∀ (buf : List Nat) (env : List WAct) (p : PipeCB) (i : Nat)
      (r : PipeCB × Nat × List WAct),
      PipeModRel p → pipeWriteLoop buf env p i = some r → PipeModRel r.1 := by
  intro buf
  induction buf with
  | nil =>
      intro env p i r h hw
      simp only [pipeWriteLoop, Option.some.injEq] at hw
      subst hw
      exact h
  | cons b rest ih =>
      intro env p i r h hw
      simp only [pipeWriteLoop] at hw
      cases hww : writeWait env p with
      | none => rw [hww] at hw; simp at hw
      | some pe =>
          obtain ⟨p1, e1⟩ := pe
          rw [hww] at hw
          have h1 : PipeModRel p1 := pipeModRel_writeWait env p (p1, e1) h hww
          exact ih e1 (putByte b p1) (i + 1) r (pipeModRel_putByte b p1 h1) hw

/-- The read loop keeps the invariant. -/
theorem pipeInv_pipeReadLoop :
    ∀ (n : Nat) (env : List RAct) (p : PipeCB) (acc : List Nat)
      (r : PipeCB × List Nat × List RAct),
      PipeInv p → pipeReadLoop n env p acc = some r → PipeInv r.1 := by
  intro n
  induction n with
  | zero =>
      intro env p acc r h hw
      simp only [pipeReadLoop, Option.some.injEq] at hw
      subst hw
      exact h
  | succ m ih =>
      intro env p acc r h hw
      simp only [pipeReadLoop] at hw
      cases hww : readWait env p with
      | none => rw [hww] at hw; simp at hw
      | some pe =>
          obtain ⟨p1, e1⟩ := pe
          simp only [hww] at hw
          have h1 : PipeInv p1 := pipeInv_readWait env p (p1, e1) h hww
          have hpost := readWait_post env p (p1, e1) hww
          split at hw
          · simp only [Option.some.injEq] at hw; subst hw; exact h1
          · rename_i hneg
            have hb : 1 ≤ p1.w_bytes := by
              by_cases hc : p1.w_bytes = 0
              · cases hrw : p1.writer with
                | true => exact absurd ⟨hrw, hc⟩ hpost
                | false => exact absurd ⟨hrw, hc⟩ hneg
              · omega
            exact ih e1 (takeByte p1) _ r (pipeInv_takeByte p1 h1 hb) hw

/-- C5: counterexample to the claim as stated.  `fullOpenPipe` satisfies the
cyclic-buffer invariant, yet a write of one byte that resumes after the reader
closed leaves `w_bytes = 513 > PIPE_BUFFER_SIZE`, violating
`0 ≤ w_bytes ≤ PIPE_BUFFER_SIZE` at the quiescent moment after the call. -/
theorem pipe_invariant_overrun_counterexample :
    PipeInv fullOpenPipe ∧
    (pipe_write fullOpenPipe [9] [WAct.closeReader]).map (fun x => (x.1).w_bytes) =
      some (PIPE_BUFFER_SIZE + 1) ∧
    ¬(PIPE_BUFFER_SIZE + 1 ≤ PIPE_BUFFER_SIZE) :=
  ⟨by decide, rfl, by decide⟩

/-- C5 (amended): the modular relation
`w_position = (r_position + w_bytes) mod PIPE_BUFFER_SIZE` is established by
pipe creation and preserved by every pipe operation; the bound
`w_bytes ≤ PIPE_BUFFER_SIZE` is additionally preserved by creation, read and
both half-closes, and by every write during which the reader side stays open —
but not by a write that resumes after the reader closed, which can leave
`w_bytes > PIPE_BUFFER_SIZE`. -/
theorem pipe_invariant_preservation :
    PipeInv initPipe ∧
    (∀ p q v, pipe_reader_close (some p) = (some q, v) → PipeInv p → PipeInv q) ∧
    (∀ p q v, pipe_writer_close (some p) = (some q, v) → PipeInv p → PipeInv q) ∧
    (∀ p n env q v bs, PipeInv p → pipe_read p n env = some (q, v, bs) → PipeInv q) ∧
    (∀ p buf env q v, PipeInv p → pipe_write p buf env = some (q, v) →
      q.reader = true → PipeInv q) ∧
    (∀ p buf env q v, PipeModRel p → pipe_write p buf env = some (q, v) → PipeModRel q) := by
  refine ⟨by decide, ?_, ?_, ?_, ?_, ?_⟩
  · intro p q v hc h
    simp only [pipe_reader_close] at hc
    split at hc
    · simp only [Prod.mk.injEq, Option.some.injEq] at hc
      rw [← hc.1]
      exact h
    · simp only [Prod.mk.injEq, Option.some.injEq] at hc
      rw [← hc.1]
      exact h
  · intro p q v hc h
    simp only [pipe_writer_close] at hc
    split at hc
    · simp only [Prod.mk.injEq, Option.some.injEq] at hc
      rw [← hc.1]
      exact h
    · simp only [Prod.mk.injEq, Option.some.injEq] at hc
      rw [← hc.1]
      exact h
  · intro p n env q v bs h hr
    unfold pipe_read at hr
    split at hr
    · simp only [Option.some.injEq, Prod.mk.injEq] at hr
      rw [← hr.1]
      exact h
    · split at hr
      · simp only [Option.some.injEq, Prod.mk.injEq] at hr
        rw [← hr.1]
        exact h
      · cases hww : pipeReadLoop n env p [] with
        | none => rw [hww] at hr; simp at hr
        | some pe =>
            obtain ⟨p1, bs1, e1⟩ := pe
            rw [hww] at hr
            simp only [Option.some.injEq, Prod.mk.injEq] at hr
            rw [← hr.1]
            exact pipeInv_pipeReadLoop n env p [] (p1, bs1, e1) h hww
  · intro p buf env q v h hwr hq
    unfold pipe_write at hwr
    split at hwr
    · simp only [Option.some.injEq, Prod.mk.injEq] at hwr
      rw [← hwr.1]
      exact h
    · cases hww : pipeWriteLoop buf env p 0 with
      | none => rw [hww] at hwr; simp at hwr
      | some pe =>
          obtain ⟨p1, i1, e1⟩ := pe
          rw [hww] at hwr
          simp only [Option.some.injEq, Prod.mk.injEq] at hwr
          rw [← hwr.1] at hq ⊢
          exact pipeInv_pipeWriteLoop buf env p 0 (p1, i1, e1) h hww hq
  · intro p buf env q v h hwr
    unfold pipe_write at hwr
    split at hwr
    · simp only [Option.some.injEq, Prod.mk.injEq] at hwr
      rw [← hwr.1]
      exact h
    · cases hww : pipeWriteLoop buf env p 0 with
      | none => rw [hww] at hwr; simp at hwr
      | some pe =>
          obtain ⟨p1, i1, e1⟩ := pe
          rw [hww] at hwr
          simp only [Option.some.injEq, Prod.mk.injEq] at hwr
          rw [← hwr.1]
          exact pipeModRel_pipeWriteLoop buf env p 0 (p1, i1, e1) h hww

/-- Witness for the amended C5 theorem: the invariant holds for a pipe holding
three bytes and is preserved by a `pipe_read` of two of them. -/
theorem pipe_invariant_preservation_witness :
    PipeInv threeBytePipe ∧ PipeInv (takeByte (takeByte threeBytePipe)) :=
  ⟨by decide,
    pipe_invariant_preservation.2.2.2.1 threeBytePipe 2 []
      (takeByte (takeByte threeBytePipe)) 2 [0, 0] (by decide) rfl⟩

/-! ## PTCB and thread operations (kernel_threads.h, thread part of kernel_proc source) -/

/-- A `Task` (`int task(int argl, void* args)`): the embedding gives it the
argument length and the argument bytes and it yields the `int` return value. -/
def KTask : Type := Nat → List Nat → Int

/-- Process thread control block `PTCB`.  The scheduler-level `tcb` pointer and
the condition variable `exit_cv` carry no modelled state.  `linked` models
membership of `ptcb_list_node` in the owning process's `ptcb_list`; `freed` is
the ghost flag for `free(ptcb)`. -/
structure PTCB where
  task : Option KTask
  argl : Nat
  args : List Nat
  exitval : Int
  exited : Bool
  detached : Bool
  refcount : Nat
  linked : Bool
  freed : Bool

/-- `initialize_PTCB`: everything zeroed, the list node self-looped (not in
any list yet, so `linked := false`). -/
def init_PTCB : PTCB :=
  { task := none, argl := 0, args := [], exitval := 0, exited := false
    detached := false, refcount := 0, linked := false, freed := false }

/-- The PTCB built and linked by `sys_CreateThread` (and, identically, by the
thread set-up inside `sys_Exec` for a non-null task): fresh PTCB carrying the
task and arguments, pushed onto the process's `ptcb_list`. -/
def createPTCB (t : KTask) (argl : Nat) (args : List Nat) : PTCB :=
  { init_PTCB with task := some t, argl := argl, args := args, linked := true }

/-- `sys_CreateThread(task, argl, args)`: returns `NOTHREAD` (`none`) for a
null task, otherwise allocates and links the PTCB (the new thread's Tid is the
PTCB itself).  The PCB-side `thread_count++` is modelled with the PCB
operations below. -/
def sys_CreateThread (task : Option KTask) (argl : Nat) (args : List Nat) : Option PTCB :=
  match task with
  | none => none
  | some t => some (createPTCB t argl args)

/-- The effect of `sys_ThreadExit(exitval)` on the current PTCB: marks it
exited and publishes the exit value (then broadcasts `exit_cv` and sleeps
forever).  No exit path frees or unlinks the PTCB. -/
def threadExit_thread (v : Int) (p : PTCB) : PTCB :=
  { p with exited := true, exitval := v }

/-- The `start_thread` trampoline: runs the task from the PTCB on its
arguments and passes the return value to thread exit. -/
def start_thread (p : PTCB) : PTCB :=
  threadExit_thread ((p.task.getD (fun _ _ => 0)) p.argl p.args) p

/-- What the target thread can do while a joiner sleeps on its `exit_cv`:
exit with some value, or get detached by `sys_ThreadDetach`. -/
inductive TAct
  | texit (v : Int)
  | tdetach

/-- Effect of one target-thread action on its PTCB. -/
def applyTAct : TAct → PTCB → PTCB
  | TAct.texit v, p => { p with exited := true, exitval := v }
  | TAct.tdetach, p => { p with detached := true }

/-- `sys_ThreadJoin`'s wait loop:
`while (ptcb->exited == 0 && ptcb->detached == 0) kernel_wait(&ptcb->exit_cv);`. -/
def joinWait : List TAct → PTCB → Option (PTCB × List TAct)
  | [], p =>
      if p.exited = false ∧ p.detached = false then none
      else some (p, [])
  | a :: rest, p =>
      if p.exited = false ∧ p.detached = false then joinWait rest (applyTAct a p)
      else some (p, a :: rest)

/-- `sys_ThreadJoin(tid, &exitval)`.  `inList` models
`rlist_find(&CURPROC->ptcb_list, ptcb, NULL) != NULL`, `isSelf` models
`tid == sys_ThreadSelf()` (the `tid == NOTHREAD` case is the absence of a
PTCB and is not represented).  Returns the target's final PTCB state, the C
return value, and the value stored through the `exitval` pointer. -/
def sys_ThreadJoin (p : PTCB) (inList : Bool) (isSelf : Bool) (env : List TAct) :
    Option (PTCB × Int × Option Int) :=
  if inList = false ∨ isSelf = true ∨ p.detached = true then some (p, -1, none)
  else
    match joinWait env { p with refcount := p.refcount + 1 } with
    | none => none
    | some (q, _) =>
        if q.detached = true then some ({ q with refcount := q.refcount - 1 }, -1, none)
        else if q.refcount - 1 = 0 then
          some ({ q with refcount := q.refcount - 1, linked := false, freed := true },
            0, some q.exitval)
        else some ({ q with refcount := q.refcount - 1 }, 0, some q.exitval)

/-- `sys_ThreadDetach(tid)`: fails if the target is not a thread of the
current process or has already exited; otherwise sets `detached = 1` and
broadcasts `exit_cv`. -/
def sys_ThreadDetach (p : PTCB) (inList : Bool) : PTCB × Int :=
  if inList = false ∨ p.exited = true then (p, -1)
  else ({ p with detached := true }, 0)

/-- C4: counterexample to the claim as stated.  A thread created by
`sys_CreateThread` that runs its task and exits with no joiner reaches a
quiescent state with `exited = 1` and `refcount = 0`, yet its PTCB is neither
freed nor unlinked — no exit path frees a PTCB, only `sys_ThreadJoin` does. -/
theorem ptcb_unjoined_exit_leak_counterexample :
    (sys_CreateThread (some (fun _ _ => (7 : Int))) 0 []).map
        (fun p => ((start_thread p).exited, (start_thread p).refcount,
          (start_thread p).freed, (start_thread p).linked)) =
      some (true, 0, false, true) :=
  rfl

/-- If the wait-loop condition fails at entry, the loop exits at once. -/
theorem joinWait_not_waiting (env : List TAct) (p : PTCB)
    (h : ¬(p.exited = false ∧ p.detached = false)) :
    joinWait env p = some (p, env) := by
  cases env <;> simp only [joinWait, if_neg h]

/-- The join wait loop does not change the refcount, the ghost freed flag, or
the list membership of the target PTCB (the target's own actions never touch
those fields). -/
theorem joinWait_fields :
    ∀ (env : List TAct) (p : PTCB) (r : PTCB × List TAct), joinWait env p = some r →
      (r.1).refcount = p.refcount ∧ (r.1).freed = p.freed ∧ (r.1).linked = p.linked := by
  intro env
  induction env with
  | nil =>
      intro p r hw
      simp only [joinWait] at hw
      split at hw
      · simp at hw
      · simp only [Option.some.injEq] at hw; subst hw; exact ⟨rfl, rfl, rfl⟩
  | cons a rest ih =>
      intro p r hw
      simp only [joinWait] at hw
      split at hw
      · have := ih (applyTAct a p) r hw
        cases a <;> simpa [applyTAct] using this
      · simp only [Option.some.injEq] at hw; subst hw; exact ⟨rfl, rfl, rfl⟩

/-- When the join wait loop hands control back, the target has exited or has
been detached. -/
theorem joinWait_post :
    ∀ (env : List TAct) (p : PTCB) (r : PTCB × List TAct), joinWait env p = some r →
      ¬((r.1).exited = false ∧ (r.1).detached = false) := by
  intro env
  induction env with
  | nil =>
      intro p r hw
      simp only [joinWait] at hw
      split at hw
      · simp at hw
      · case isFalse hneg => simp only [Option.some.injEq] at hw; subst hw; exact hneg
  | cons a rest ih =>
      intro p r hw
      simp only [joinWait] at hw
      split at hw
      · exact ih (applyTAct a p) r hw
      · case isFalse hneg => simp only [Option.some.injEq] at hw; subst hw; exact hneg


/-- The state `sys_ThreadJoin`'s last-joiner path leaves the target PTCB in:
refcount at zero, node unlinked from the process's `ptcb_list`, storage freed. -/
def joinedAfter (p : PTCB) : PTCB :=
  { p with refcount := 0, linked := false, freed := true }

/-- C4 (amended): a PTCB is freed only by `sys_ThreadJoin`, and only when the
target has exited, is not detached, and the refcount has dropped to zero —
the free also unlinks the node, and it happens exactly when a successful join
leaves the refcount at zero.  The exit and detach paths never free or unlink
a PTCB, which is why a thread that exits detached or with no joiner leaves
its PTCB allocated (`exited = 1`, `refcount = 0`, still linked, never freed). -/
theorem ptcb_free_only_in_join :
    (∀ (p : PTCB) (inL self : Bool) (env : List TAct) (q : PTCB) (r : Int) (ev : Option Int),
      p.freed = false → sys_ThreadJoin p inL self env = some (q, r, ev) → q.freed = true →
        q.exited = true ∧ q.detached = false ∧ q.refcount = 0 ∧ q.linked = false) ∧
    (∀ (p : PTCB) (env : List TAct) (q : PTCB) (ev : Option Int),
      sys_ThreadJoin p true false env = some (q, 0, ev) → q.refcount = 0 →
        q.freed = true ∧ q.linked = false) ∧
    (∀ (v : Int) (p : PTCB),
      (threadExit_thread v p).freed = p.freed ∧ (threadExit_thread v p).linked = p.linked) ∧
    (∀ (p : PTCB) (inL : Bool),
      ((sys_ThreadDetach p inL).1).freed = p.freed ∧
      ((sys_ThreadDetach p inL).1).linked = p.linked) := by
  refine ⟨?_, ?_, ?_, ?_⟩
  · intro p inL self env q r ev hpf hj hqf
    unfold sys_ThreadJoin at hj
    split at hj
    · simp only [Option.some.injEq, Prod.mk.injEq] at hj
      rw [← hj.1] at hqf
      rw [hpf] at hqf
      simp at hqf
    · cases hjw : joinWait env { p with refcount := p.refcount + 1 } with
      | none => simp only [hjw] at hj; exact Option.noConfusion hj
      | some qe =>
          obtain ⟨q0, e0⟩ := qe
          simp only [hjw] at hj
          have hfields := joinWait_fields env _ (q0, e0) hjw
          have hpost := joinWait_post env _ (q0, e0) hjw
          have hq0f : q0.freed = false := by
            have h1 : q0.freed = p.freed := by simpa using hfields.2.1
            rw [hpf] at h1
            exact h1
          split at hj
          · simp only [Option.some.injEq, Prod.mk.injEq] at hj
            have : q0.freed = true := by rw [← hj.1] at hqf; exact hqf
            rw [hq0f] at this
            simp at this
          · rename_i hdet
            split at hj
            · rename_i hrc
              simp only [Option.some.injEq, Prod.mk.injEq] at hj
              rw [← hj.1]
              have hde : q0.detached = false := by
                cases hd : q0.detached with
                | true => exact absurd hd hdet
                | false => rfl
              have hex : q0.exited = true := by
                cases hx : q0.exited with
                | true => rfl
                | false => exact absurd ⟨hx, hde⟩ hpost
              exact ⟨hex, hde, hrc, rfl⟩
            · simp only [Option.some.injEq, Prod.mk.injEq] at hj
              have : q0.freed = true := by rw [← hj.1] at hqf; exact hqf
              rw [hq0f] at this
              simp at this
  · intro p env q ev hj hrc
    unfold sys_ThreadJoin at hj
    split at hj
    · simp at hj
    · cases hjw : joinWait env { p with refcount := p.refcount + 1 } with
      | none => simp only [hjw] at hj; exact Option.noConfusion hj
      | some qe =>
          obtain ⟨q0, e0⟩ := qe
          simp only [hjw] at hj
          split at hj
          · simp at hj
          · split at hj
            · simp only [Option.some.injEq, Prod.mk.injEq] at hj
              rw [← hj.1]
              exact ⟨rfl, rfl⟩
            · rename_i hne
              simp only [Option.some.injEq, Prod.mk.injEq] at hj
              have : q0.refcount - 1 = 0 := by rw [← hj.1] at hrc; exact hrc
              exact absurd this hne
  · intro v p
    exact ⟨rfl, rfl⟩
  · intro p inL
    unfold sys_ThreadDetach
    split
    · exact ⟨rfl, rfl⟩
    · exact ⟨rfl, rfl⟩

/-- A PTCB of an already-exited, joinable thread with no other joiner. -/
def exitedPTCB : PTCB :=
  { task := none, argl := 0, args := [], exitval := 9, exited := true
    detached := false, refcount := 0, linked := true, freed := false }

/-- The state `sys_ThreadJoin` leaves `exitedPTCB` in. -/
def joinedPTCB : PTCB :=
  { task := none, argl := 0, args := [], exitval := 9, exited := true
    detached := false, refcount := 0, linked := false, freed := true }

/-- Witness for the amended C4 theorem: joining the exited `exitedPTCB` frees
it, and the freed state satisfies exactly the conditions of the theorem. -/
theorem ptcb_free_only_in_join_witness :
    exitedPTCB.freed = false ∧ joinedPTCB.freed = true ∧
    (joinedPTCB.exited = true ∧ joinedPTCB.detached = false ∧
      joinedPTCB.refcount = 0 ∧ joinedPTCB.linked = false) :=
  ⟨rfl, rfl,
    ptcb_free_only_in_join.1 exitedPTCB true false [] joinedPTCB 0 (some 9) rfl rfl rfl⟩

/-- C9: a thread created by `sys_CreateThread` whose task returns
`t argl args` makes exactly that value available to `sys_ThreadJoin`, which
stores it through the caller's `exitval` pointer and returns 0 — both when the
join starts after the thread has exited (first conjunct; the join also frees
the then-unreferenced PTCB) and when the joiner blocks first and is woken by
the thread's exit (second conjunct). -/
theorem create_join_exitval_roundtrip (t : KTask) (argl : Nat) (args : List Nat)
    (env : List TAct) :
    (∃ p0 q ev, sys_CreateThread (some t) argl args = some p0 ∧
      sys_ThreadJoin (start_thread p0) true false env = some (q, 0, ev) ∧
      ev = some (t argl args) ∧ q.freed = true) ∧
    (∃ p0 q ev, sys_CreateThread (some t) argl args = some p0 ∧
      sys_ThreadJoin p0 true false (TAct.texit (t argl args) :: env) = some (q, 0, ev) ∧
      ev = some (t argl args)) := by
  constructor
  · have hjoin : sys_ThreadJoin (start_thread (createPTCB t argl args)) true false env =
        some (joinedAfter (start_thread (createPTCB t argl args)), 0, some (t argl args)) := by
      unfold sys_ThreadJoin
      rw [if_neg (by simp [start_thread, threadExit_thread, createPTCB, init_PTCB])]
      rw [joinWait_not_waiting env _
        (by simp [start_thread, threadExit_thread, createPTCB, init_PTCB])]
      rfl
    exact ⟨createPTCB t argl args, joinedAfter (start_thread (createPTCB t argl args)),
      some (t argl args), rfl, hjoin, rfl, rfl⟩
  · have hjoin : sys_ThreadJoin (createPTCB t argl args) true false
        (TAct.texit (t argl args) :: env) =
        some (joinedAfter (threadExit_thread (t argl args) (createPTCB t argl args)),
          0, some (t argl args)) := by
      unfold sys_ThreadJoin
      rw [if_neg (by simp [createPTCB, init_PTCB])]
      have hstep : joinWait (TAct.texit (t argl args) :: env)
            { createPTCB t argl args with refcount := (createPTCB t argl args).refcount + 1 } =
          some (applyTAct (TAct.texit (t argl args))
              { createPTCB t argl args with refcount := (createPTCB t argl args).refcount + 1 },
            env) := by
        simp only [joinWait]
        rw [if_pos (by simp [createPTCB, init_PTCB])]
        exact joinWait_not_waiting env _ (by simp [applyTAct, createPTCB, init_PTCB])
      rw [hstep]
      rfl
    exact ⟨createPTCB t argl args,
      joinedAfter (threadExit_thread (t argl args) (createPTCB t argl args)),
      some (t argl args), rfl, hjoin, rfl⟩

/-! ## PCB and process operations (kernel_proc.c) -/

/-- Process state tag. -/
inductive PState
  | free
  | alive
  | zombie
deriving DecidableEq

/-- Process control block `PCB`, restricted to the fields the claims and the
procinfo stream read: state tag, parent pid (`none` models a `NULL` parent
pointer), argument storage, main task and the thread counter.  The intrusive
children/exited lists, `child_exit`, the FIDT and `main_thread` act on other
structures and are not needed by the claims over this model. -/
structure PCB where
  pstate : PState
  parent : Option Nat
  argl : Nat
  args : Option (List Nat)
  main_task : Option KTask
  thread_count : Int
  exitval : Int

/-- `initialize_PCB`: `pstate = FREE`, `argl = 0`, `args = NULL`, empty lists,
`thread_count = 0`.  (`main_task` and `exitval` are left untouched by the C;
the model picks `none`/`0`.) -/
def init_PCB : PCB :=
  { pstate := PState.free, parent := none, argl := 0, args := none
    main_task := none, thread_count := 0, exitval := 0 }

/-- `sys_Exec(call, argl, args)` acting on the PCB it acquires.  `freePCB` is
the PCB taken from the free list (`none` when the list is exhausted, in which
case `acquire_PCB` returns `NULL` and `sys_Exec` reports `NOPROC`).
`acquire_PCB` sets `pstate = ALIVE`; the parent/FIDT inheritance acts on
structures outside this model.  A main thread (and its PTCB, as `createPTCB`)
is spawned — and `thread_count` incremented — only when `call` is non-null. -/
def sys_Exec (call : Option KTask) (argl : Nat) (args : Option (List Nat))
    (freePCB : Option PCB) : Option PCB :=
  match freePCB with
  | none => none
  | some pcb0 =>
      match call with
      | some _ =>
          some { pcb0 with pstate := PState.alive, main_task := call, argl := argl,
                           args := args, thread_count := pcb0.thread_count + 1 }
      | none =>
          some { pcb0 with pstate := PState.alive, main_task := call, argl := argl,
                           args := args }

/-- The effect of `sys_ThreadExit` on the exiting thread's PCB:
`thread_count--`, and if it reached zero, clean up (release `args`) and mark
the process `ZOMBIE`.  The re-parenting of children, the splicing of exited
lists, and the FIDT cleanup act on other PCBs and streams and are outside
this per-PCB model. -/
def sys_ThreadExit_pcb (p : PCB) : PCB :=
  if p.thread_count - 1 = 0 then
    { p with thread_count := p.thread_count - 1, args := none, pstate := PState.zombie }
  else { p with thread_count := p.thread_count - 1 }

/-- C6: counterexample to the claim as stated.  `sys_Exec` with a null task
(used to create the pid-0 idle process) acquires a PCB, which sets
`pstate = ALIVE`, but spawns no main thread: the resulting quiescent state has
`state = ALIVE` with `thread_count = 0`, refuting `ALIVE ⇔ thread_count > 0`
for processes created with a null task. -/
theorem exec_null_task_alive_counterexample :
    (sys_Exec none 0 none (some init_PCB)).map (fun p => (p.pstate, p.thread_count)) =
      some (PState.alive, 0) ∧ ¬((0 : Int) > 0) :=
  ⟨rfl, by decide⟩

/-- C6 (amended): `state = ZOMBIE ⇒ thread_count = 0` holds, and a process
created by `sys_Exec` with a non-null task starts `ALIVE` with
`thread_count = 1 > 0`; but a process created with a null task (the idle
process) is `ALIVE` with `thread_count = 0`, so `ALIVE ⇔ thread_count > 0`
holds only for processes created with a non-null task. -/
theorem pcb_state_thread_count :
    (∀ (t : KTask) (argl : Nat) (args : Option (List Nat)) (p0 : PCB),
      p0.thread_count = 0 →
      ∃ p, sys_Exec (some t) argl args (some p0) = some p ∧
        p.pstate = PState.alive ∧ p.thread_count = 1) ∧
    (∀ (argl : Nat) (args : Option (List Nat)) (p0 : PCB),
      ∃ p, sys_Exec none argl args (some p0) = some p ∧
        p.pstate = PState.alive ∧ p.thread_count = p0.thread_count) ∧
    (∀ p : PCB, p.pstate = PState.alive →
      (sys_ThreadExit_pcb p).pstate = PState.zombie → (sys_ThreadExit_pcb p).thread_count = 0) := by
  refine ⟨?_, ?_, ?_⟩
  · intro t argl args p0 h0
    refine ⟨_, rfl, rfl, ?_⟩
    show p0.thread_count + 1 = 1
    rw [h0]
    decide
  · intro argl args p0
    exact ⟨_, rfl, rfl, rfl⟩
  · intro p ha hz
    unfold sys_ThreadExit_pcb at hz ⊢
    split at hz
    · rename_i hc
      rw [if_pos hc]
      exact hc
    · rw [ha] at hz
      exact absurd hz (by decide)

/-- Witness for the amended C6 theorem: executing a concrete (constant) task
on a fresh PCB yields an `ALIVE` process with one thread. -/
theorem pcb_state_thread_count_witness :
    init_PCB.thread_count = 0 ∧
    ∃ p, sys_Exec (some (fun _ _ => (0 : Int))) 0 none (some init_PCB) = some p ∧
      p.pstate = PState.alive ∧ p.thread_count = 1 :=
  ⟨rfl, pcb_state_thread_count.1 (fun _ _ => (0 : Int)) 0 none init_PCB rfl⟩

/-! ## Process-info stream (procinfo part of kernel_proc.c) -/

/-- Upper bound on the argument bytes copied into a procinfo record
(`PROCINFO_MAX_ARGS_SIZE`; the header defining its value is not part of the
sources, and no claim depends on the value). -/
def PROCINFO_MAX_ARGS_SIZE : Nat := 128

/-- One snapshot record (`procinfo`): pid, ppid, alive flag, thread count,
main task, arglen and up to `PROCINFO_MAX_ARGS_SIZE` argument bytes. -/
structure procinfo where
  pid : Nat
  ppid : Option Nat
  alive : Bool
  thread_count : Int
  main_task : Option KTask
  argl : Nat
  args : List Nat

/-- The cursor-advance loop of `procinfo_read`:
`while (cursor < MAX_PROC - 1 && PT[cursor].pstate == FREE) cursor++;`
written with the explicit iteration bound `MAX_PROC - 1 - cursor` as fuel so
that it is structurally recursive (the loop runs at most that many times, and
when the fuel runs out the cursor has reached `MAX_PROC - 1`, where the first
conjunct of the C guard is false). -/
def scanFrom (PT : List PCB) : Nat → Nat → Nat
  | 0, cur => cur
  | Nat.succ k, cur =>
      if (PT.getD cur init_PCB).pstate = PState.free then scanFrom PT k (cur + 1) else cur

/-- The `procinfo` record built from the process-table slot at `idx`.  (The C
calls `get_pid(&pcb)` on a stack copy of the slot — pointer arithmetic whose
value is a memory-layout artifact; the model reports the slot index, which is
what `get_pid` yields for the table slot itself.) -/
def mkProcinfo (PT : List PCB) (idx : Nat) : procinfo :=
  { pid := idx
    ppid := (PT.getD idx init_PCB).parent
    alive := decide ((PT.getD idx init_PCB).pstate = PState.alive)
    thread_count := (PT.getD idx init_PCB).thread_count
    main_task := (PT.getD idx init_PCB).main_task
    argl := (PT.getD idx init_PCB).argl
    args := ((PT.getD idx init_PCB).args.getD []).take
      (min (PT.getD idx init_PCB).argl PROCINFO_MAX_ARGS_SIZE) }

/-- `procinfo_read(procinfo_cb, buf, size)` over a process table `PT` (the
model takes `MAX_PROC = PT.length`) with cursor `cur`.  Returns the new
cursor, the C return value (`0` at end of table, otherwise the caller-supplied
`size`, which is what the final `memcpy`-and-`return size` yields), and the
record copied out, if any. -/
def procinfo_read (PT : List PCB) (cur : Nat) (size : Nat) : Nat × Int × Option procinfo :=
  if cur = PT.length then (cur, 0, none)
  else
    let c := scanFrom PT (PT.length - 1 - cur) cur
    (c + 1, (size : Int), some (mkProcinfo PT c))

/-- A sample `ALIVE` process-table slot. -/
def aliveSample : PCB :=
  { pstate := PState.alive, parent := none, argl := 0, args := none
    main_task := some (fun _ _ => 0), thread_count := 1, exitval := 0 }

/-- A process table whose slots after the cursor are all FREE. -/
def trailingFreePT : List PCB := [aliveSample, init_PCB, init_PCB]

/-- C8: the code violates the claim.  With the cursor at 1 and every remaining
slot FREE, the scan loop stops at the last slot (`MAX_PROC - 1 = 2`) because
its guard is `cursor < MAX_PROC - 1`, and the call returns a snapshot record
describing that FREE slot with return value `size = 10 ≠ 0` — instead of
advancing past the trailing FREE slots and returning 0 as the claim (and the
code's own "find the first non-free process" comment) requires. -/
theorem procinfo_read_trailing_free_slot_bug :
    (procinfo_read trailingFreePT 1 10).1 = 3 ∧
    (procinfo_read trailingFreePT 1 10).2.1 = 10 ∧
    (procinfo_read trailingFreePT 1 10).2.2 = some (mkProcinfo trailingFreePT 2) ∧
    (trailingFreePT.getD 2 init_PCB).pstate = PState.free ∧
    (mkProcinfo trailingFreePT 2).alive = false ∧
    (10 : Int) ≠ 0 :=
  ⟨rfl, rfl, rfl, rfl, rfl, by decide⟩

/-! ## Sockets (kernel_socket.h, socket source file) -/

/-- Connection request `request`.  `admitted` is the C `int` flag;
`connectedSignals` is a ghost counter of `kernel_signal`/`kernel_broadcast`
calls delivered on this request's `connected_cv`; `freeCount` is a ghost
counter of `free` calls on this request's storage. -/
structure Req where
  admitted : Nat
  connectedSignals : Nat
  freeCount : Nat
deriving DecidableEq

/-- Socket type tag (`socket_type`). -/
inductive SType
  | unbound
  | listener
  | peer
deriving DecidableEq

/-- Socket control block `socket_cb`.  `refcount` is the C `uint` (a natural
number, arithmetic modulo `2 ^ 32`).  `queue` is the listener union member;
`read_pipe`/`write_pipe` are the peer union members (the C overlays them in a
union; the model stores both, and each operation touches only the ones the
source touches).  `reqAvailBroadcasts` counts broadcasts on the listener's
`req_available`; `freed` is the ghost flag for `free(socket)`. -/
structure SCB where
  refcount : Nat
  stype : SType
  port : Nat
  queue : List Req
  read_pipe : Option PipeCB
  write_pipe : Option PipeCB
  reqAvailBroadcasts : Nat
  freed : Bool

/-- The socket built by `sys_Socket(port)`: `refcount = 0`, `UNBOUND`,
carrying the port. -/
def newSocket (port : Nat) : SCB :=
  { refcount := 0, stype := SType.unbound, port := port, queue := []
    read_pipe := none, write_pipe := none, reqAvailBroadcasts := 0, freed := false }

/-- `SCB_decref(socket)`: `socket->refcount--;` on the `uint` field (wrapping
modulo `2 ^ 32`), then `if (socket->refcount < 0) free(socket);` — an unsigned
value compared against zero, exactly as in the source. -/
def SCB_decref (s : SCB) : SCB :=
  if (s.refcount + (2 ^ 32 - 1)) % 2 ^ 32 < 0 then
    { s with refcount := (s.refcount + (2 ^ 32 - 1)) % 2 ^ 32, freed := true }
  else
    { s with refcount := (s.refcount + (2 ^ 32 - 1)) % 2 ^ 32, freed := s.freed }

/-- `socket_close(sock_cb)`.  For a PEER it half-closes both pipes and clears
the pointers; for a LISTENER it pops and frees every queued request (the C
frees the popped `rlnode*`, i.e. the `queue_node` field inside the request),
unbinds the port (`PORT_MAP` update not represented in the per-socket model)
and broadcasts `req_available` — but signals no request's `connected_cv`.
In all cases it then calls `SCB_decref` and returns 0.  The second component
returns the drained requests so their ghost state remains observable. -/
def socket_close (s : Option SCB) : Option SCB × List Req × Int :=
  match s with
  | none => (none, [], -1)
  | some s =>
      match s.stype with
      | SType.peer =>
          (some (SCB_decref { s with read_pipe := none, write_pipe := none }), [], 0)
      | SType.listener =>
          (some (SCB_decref
              { s with queue := [], reqAvailBroadcasts := s.reqAvailBroadcasts + 1 }),
            s.queue.map (fun r => { r with freeCount := r.freeCount + 1 }), 0)
      | SType.unbound => (some (SCB_decref s), [], 0)

/-- The tail of `sys_Connect` after `kernel_timedwait` returns (by signal or
by timeout): read `req->admitted`, remove the request from the queue, `free`
it, and return 0 iff it was admitted.  (The preceding `SCB_decref(socket)` on
the connecting side's own socket acts on a different object.) -/
def connect_resume (r : Req) : Req × Int :=
  ({ r with freeCount := r.freeCount + 1 }, if r.admitted = 1 then 0 else -1)

/-- A listener socket with one pending, not-yet-admitted connection request
whose connecting thread is blocked on `connected_cv`. -/
def pendingListener : SCB :=
  { refcount := 1, stype := SType.listener, port := 100
    queue := [{ admitted := 0, connectedSignals := 0, freeCount := 0 }]
    read_pipe := none, write_pipe := none, reqAvailBroadcasts := 0, freed := false }

/-- The pending request as `socket_close` leaves it. -/
def drainedReq : Req := { admitted := 0, connectedSignals := 0, freeCount := 1 }

/-- C3: the code violates the claim.  Closing a listener with a pending
request frees that request in the closing thread (`freeCount = 1` — in the C
it even passes the interior `queue_node` pointer to `free`), and delivers no
signal on the request's `connected_cv` (`connectedSignals = 0`), so a
connecting thread waiting with `NO_TIMEOUT` never wakes and never observes
`admitted = 0`; a connector whose `timedwait` does elapse runs the resume path
on the freed request and frees it a second time (`freeCount = 2`), returning
-1.  The request is therefore not freed exactly once by the connecting
thread. -/
theorem socket_close_request_double_free_bug :
    (socket_close (some pendingListener)).2.2 = 0 ∧
    (socket_close (some pendingListener)).2.1 = [drainedReq] ∧
    drainedReq.freeCount = 1 ∧
    drainedReq.connectedSignals = 0 ∧
    (connect_resume drainedReq).1.freeCount = 2 ∧
    (connect_resume drainedReq).2 = -1 :=
  ⟨rfl, rfl, rfl, rfl, rfl, rfl⟩

/-- C7: the code violates the claim.  `refcount` is unsigned, so the test
`socket->refcount < 0` after the decrement is always false and `SCB_decref`
never frees any socket (first conjunct); in particular closing a
freshly-created socket (refcount 0, as `sys_Socket` sets it) decrements 0 to
`2 ^ 32 - 1` and leaves the storage unfreed, rather than freeing it when the
refcount reaches zero with no outstanding references. -/
theorem scb_decref_never_frees_bug :
    (∀ s : SCB, (SCB_decref s).freed = s.freed) ∧
    (socket_close (some (newSocket 5))).2.2 = 0 ∧
    ((socket_close (some (newSocket 5))).1.map (fun s => (s.refcount, s.freed))) =
      some (2 ^ 32 - 1, false) := by
  refine ⟨?_, rfl, rfl⟩
  intro s
  unfold SCB_decref
  rw [if_neg (Nat.not_lt_zero _)]

/-- Shutdown mode (`shutdown_mode`): `SHUTDOWN_READ`, `SHUTDOWN_WRITE`,
`SHUTDOWN_BOTH`. -/
inductive shutdown_mode
  | SHUTDOWN_READ
  | SHUTDOWN_WRITE
  | SHUTDOWN_BOTH
deriving DecidableEq

/-- Trace of the pipe half-close calls `sys_ShutDown` makes on the peer-union
fields (the pipe objects live on the heap, shared with the peer socket). -/
inductive CloseOp
  | closeReadPipe
  | closeWritePipe
deriving DecidableEq

/-- `sys_ShutDown(sock, mode)`.  After the `get_fcb`/`streamobj` null checks
(`none` models both an invalid fid and a null stream object) it switches on
`mode` only: `SHUTDOWN_READ` calls `pipe_reader_close` on
`socket->peer_s.read_pipe` and clears the pointer; `SHUTDOWN_BOTH` does the
same and falls through to `SHUTDOWN_WRITE`, which calls `pipe_writer_close`
on `socket->peer_s.write_pipe` and clears it.  No branch inspects
`socket->type`, and every branch returns 0.  The middle component records the
half-close calls performed. -/
def sys_ShutDown (s : Option SCB) (mode : shutdown_mode) : Option SCB × List CloseOp × Int :=
  match s with
  | none => (none, [], -1)
  | some s =>
      match mode with
      | shutdown_mode.SHUTDOWN_READ =>
          (some { s with read_pipe := none }, [CloseOp.closeReadPipe], 0)
      | shutdown_mode.SHUTDOWN_BOTH =>
          (some { s with read_pipe := none, write_pipe := none },
            [CloseOp.closeReadPipe, CloseOp.closeWritePipe], 0)
      | shutdown_mode.SHUTDOWN_WRITE =>
          (some { s with write_pipe := none }, [CloseOp.closeWritePipe], 0)

/-- C10: `sys_ShutDown` performs no socket-type check: for every socket
reachable through a valid fid — whatever its type tag, including `UNBOUND`
and `LISTENER` — it returns 0, leaves the tag unchanged, and applies the pipe
half-close operations to the peer fields of the socket union as dictated by
the mode alone (`SHUTDOWN_BOTH` falling through to also close the write
side). -/
theorem shutdown_no_type_check (s : SCB) (m : shutdown_mode) :
    (sys_ShutDown (some s) m).2.2 = 0 ∧
    (sys_ShutDown (some s) m).2.1 =
      (match m with
       | shutdown_mode.SHUTDOWN_READ => [CloseOp.closeReadPipe]
       | shutdown_mode.SHUTDOWN_WRITE => [CloseOp.closeWritePipe]
       | shutdown_mode.SHUTDOWN_BOTH => [CloseOp.closeReadPipe, CloseOp.closeWritePipe]) ∧
    (∃ s', (sys_ShutDown (some s) m).1 = some s' ∧ s'.stype = s.stype ∧
      s'.refcount = s.refcount) := by
  cases m with
  | SHUTDOWN_READ => exact ⟨rfl, rfl, _, rfl, rfl, rfl⟩
  | SHUTDOWN_WRITE => exact ⟨rfl, rfl, _, rfl, rfl, rfl⟩
  | SHUTDOWN_BOTH => exact ⟨rfl, rfl, _, rfl, rfl, rfl⟩
